/-
Verification development for the MMD-Bayesian-Neural-Network repository
(file `base.py`).  The Python functions relevant to the claims are shallowly
embedded below: pure numeric code becomes Lean functions over `ℚ` (exact
values, where the source only compares / adds / divides) or over `ℝ` (where
the source uses `exp`/`log`), raising code becomes `Except String`, and the
perturbation-sweep methods of the `Wrapper` class become explicit
state-passing functions over a small `Transform` value type.
-/
import Mathlib

namespace MMDBNN

/-! ### Topology entries (`base.py`, `get_bayesian_network` / `get_network`)

Python dispatches on the runtime type of each topology entry: tuples whose
head is the string `MP`/`AP` (pooling), other strings (activations), floats
(dropout), other tuples/lists of four (convolutions), integers (linear
widths), and anything else (which reaches the `raise ValueError` branch;
we model such an unrecognized entry, e.g. Python's `None`, as `noneE`). -/

inductive TopEntry where
  | mp (kernel stride : Nat)
  | ap (kernel stride : Nat)
  | strE (s : String)
  | floatE (q : ℚ)
  | convE (size kernel stride padding : Nat)
  | intE (n : Nat)
  | noneE
  deriving DecidableEq

/-- Layers appended to the `torch.nn.ModuleList` by the two builders.
`BayesianCNNLayer` and `BayesianLinearLayer` live in `bayesian_layers.py`
(not part of the sources); only their constructor arguments relevant to the
claims (input/output sizes) are recorded. -/
inductive Layer where
  | maxPool (kernel stride : Nat)
  | avgPool (kernel stride : Nat)
  | reluL
  | sigmoidL
  | dropout (p : ℚ)
  | bayesConv (inChannels kernels kernel stride padding : Nat)
  | conv2d (inChannels outChannels kernel stride padding : Nat)
  | bayesLinear (inSize outSize : Nat)
  | linear (inSize outSize : Nat)
  | flatten
  deriving DecidableEq

/-- The shape of `input_image` as it is threaded through the builder
(batch dimension omitted): either a spatial `(channels, h, w)` tensor or a
flattened feature vector. -/
inductive Img where
  | spatial (c h w : Nat)
  | flat (features : Nat)
  deriving DecidableEq

/-- Spatial output size of `torch.nn.Conv2d` for input size `n`,
kernel `k`, stride `s`, padding `p` (floor division). -/
def convOut (n k s p : Nat) : Nat := (n + 2 * p - k) / s + 1

/-- Spatial output size of `torch.nn.MaxPool2d` / `AvgPool2d`
(padding 0, dilation 1). -/
def poolOut (n k s : Nat) : Nat := (n - k) / s + 1

/-- Python `str()` of a topology entry, as interpolated by
`'... {} was given'.format(i)`. -/
def pyStr : TopEntry → String
  | .mp k s => "(\x27MP\x27, " ++ toString k ++ ", " ++ toString s ++ ")"
  | .ap k s => "(\x27AP\x27, " ++ toString k ++ ", " ++ toString s ++ ")"
  | .strE s => s
  | .floatE q => toString q
  | .convE a b c d =>
      "(" ++ toString a ++ ", " ++ toString b ++ ", " ++ toString c ++ ", "
        ++ toString d ++ ")"
  | .intE n => toString n
  | .noneE => "None"

/-- The message of the `ValueError` raised by both builders on an
unrecognized entry `i`: the format string interpolates the entry value `i`,
not the loop index `j`. -/
def topologyError (e : TopEntry) : String :=
  "Topology should be tuple for cnn layers, formatted as (num_kernels, kernel_size), "
    ++ "pooling layer, formatted as tuple ([\x27MP\x27, \x27AP\x27], kernel_size, stride) "
    ++ "or integer, for linear layer. " ++ pyStr e ++ " was given"

/-- Builder loop state: `prev` (the running input size), `input_image`'s
shape, the `ll_conv` flag and the layers accumulated so far. -/
structure BState where
  prev : Nat
  img : Img
  llConv : Bool
  layers : List Layer
  deriving DecidableEq

/-- Source: `input_image = torch.flatten(input_image, 1); prev = input_image.shape[-1];
features.append(Flatten())` -/
def flattenState (st : BState) : BState :=
  match st.img with
  | .spatial c h w =>
      ⟨c * h * w, .flat (c * h * w), st.llConv, st.layers ++ [Layer.flatten]⟩
  | .flat m => ⟨m, .flat m, st.llConv, st.layers ++ [Layer.flatten]⟩

/-- One iteration of the `for j, i in enumerate(topology)` loop of
`get_bayesian_network`.  Faithful to the source: the pooling branches set
`ll_conv = True`, the Bayesian convolution branch does *not* (unlike the
deterministic builder), the float branch ignores the float and uses dropout
rate 0.5, and the final `else` raises with the entry value interpolated.
Applying a pooling or convolution to an already-flattened `input_image`
would raise inside torch; we surface that as a `RuntimeError` string. -/
def bayesStep (st : BState) (e : TopEntry) : Except String BState :=
  match e with
  | .mp k s =>
      match st.img with
      | .spatial c h w =>
          .ok ⟨c, .spatial c (poolOut h k s) (poolOut w k s), true,
               st.layers ++ [Layer.maxPool k s]⟩
      | .flat _ => .error "RuntimeError: max_pool2d on non-spatial input"
  | .ap k s =>
      match st.img with
      | .spatial c h w =>
          .ok ⟨c, .spatial c (poolOut h k s) (poolOut w k s), true,
               st.layers ++ [Layer.avgPool k s]⟩
      | .flat _ => .error "RuntimeError: avg_pool2d on non-spatial input"
  | .strE s =>
      if s.toLower == "relu" then
        .ok ⟨st.prev, st.img, st.llConv, st.layers ++ [Layer.reluL]⟩
      else if s.toLower == "sigmoid" then
        .ok ⟨st.prev, st.img, st.llConv, st.layers ++ [Layer.sigmoidL]⟩
      else .error (topologyError (.strE s))
  | .floatE _ =>
      .ok ⟨st.prev, st.img, st.llConv, st.layers ++ [Layer.dropout (1 / 2)]⟩
  | .convE size k s p =>
      match st.img with
      | .spatial c h w =>
          .ok ⟨size, .spatial size (convOut h k s p) (convOut w k s p),
               st.llConv, st.layers ++ [Layer.bayesConv c size k s p]⟩
      | .flat _ => .error "RuntimeError: conv2d on non-spatial input"
  | .intE n =>
      let st1 := if st.llConv then flattenState st else st
      .ok ⟨n, st1.img, false, st1.layers ++ [Layer.bayesLinear st1.prev n]⟩
  | .noneE => .error (topologyError .noneE)

/-- Is the entry a Python tuple/list?  (`isinstance(topology[-1], (tuple, list))`) -/
def isTupleEntry : TopEntry → Bool
  | .mp _ _ => true
  | .ap _ _ => true
  | .convE _ _ _ _ => true
  | _ => false

/-- Embedding of `get_bayesian_network(topology, input_image, classes, ...)`, keeping the
layer sequence and shape bookkeeping.  After the loop the source evaluates
`topology[-1]` (an `IndexError` on an empty list) and flattens when the last
entry is a tuple/list, then appends the closing `BayesianLinearLayer`. -/
def get_bayesian_network (topology : List TopEntry) (c h w classes : Nat) :
    Except String (List Layer) := do
  let st ← topology.foldlM bayesStep ⟨c, .spatial c h w, false, []⟩
  let st ←
    match topology.getLast? with
    | none => Except.error "IndexError: list index out of range"
    | some e => if isTupleEntry e then pure (flattenState st) else pure st
  pure (st.layers ++ [Layer.bayesLinear st.prev classes])

/-- One iteration of the loop of `get_network`.  Differences from
`bayesStep`, faithful to the source: no `sigmoid` branch (such a string
reaches the `raise`), and the convolution branch *does* set `ll_conv = True`. -/
def detStep (st : BState) (e : TopEntry) : Except String BState :=
  match e with
  | .mp k s =>
      match st.img with
      | .spatial c h w =>
          .ok ⟨c, .spatial c (poolOut h k s) (poolOut w k s), true,
               st.layers ++ [Layer.maxPool k s]⟩
      | .flat _ => .error "RuntimeError: max_pool2d on non-spatial input"
  | .ap k s =>
      match st.img with
      | .spatial c h w =>
          .ok ⟨c, .spatial c (poolOut h k s) (poolOut w k s), true,
               st.layers ++ [Layer.avgPool k s]⟩
      | .flat _ => .error "RuntimeError: avg_pool2d on non-spatial input"
  | .strE s =>
      if s.toLower == "relu" then
        .ok ⟨st.prev, st.img, st.llConv, st.layers ++ [Layer.reluL]⟩
      else .error (topologyError (.strE s))
  | .floatE _ =>
      .ok ⟨st.prev, st.img, st.llConv, st.layers ++ [Layer.dropout (1 / 2)]⟩
  | .convE size k s p =>
      match st.img with
      | .spatial c h w =>
          .ok ⟨size, .spatial size (convOut h k s p) (convOut w k s p), true,
               st.layers ++ [Layer.conv2d c size k s p]⟩
      | .flat _ => .error "RuntimeError: conv2d on non-spatial input"
  | .intE n =>
      let st1 := if st.llConv then flattenState st else st
      .ok ⟨n, st1.img, false, st1.layers ++ [Layer.linear st1.prev n]⟩
  | .noneE => .error (topologyError .noneE)

/-- Embedding of `get_network(topology, input_image, classes)`.  After the loop the
source flattens when `ll_conv` is still set, then appends the closing
`torch.nn.Linear(prev, classes)`. -/
def get_network (topology : List TopEntry) (c h w classes : Nat) :
    Except String (List Layer) := do
  let st ← topology.foldlM detStep ⟨c, .spatial c h w, false, []⟩
  let st := if st.llConv then flattenState st else st
  pure (st.layers ++ [Layer.linear st.prev classes])

/-- Number of `Flatten` modules in a built layer list. -/
def countFlatten (ls : List Layer) : Nat := ls.count Layer.flatten

/-! ### Transform pipelines and the `Wrapper` perturbation sweeps

`torchvision` transform objects are modelled as values; `deepcopy` of a
value is the value itself.  The per-strength loop body of `shuffle_test` /
`white_noise_test` (batch iteration, `eval_forward`, uncertainty and score
computation — all delegated to the external model) is abstracted as an
oracle `body : ℚ → Except E Unit` that may raise, exactly where the source
can raise inside the loop. -/

inductive Transform where
  | base (id : Nat)
  | pixelShuffleT (percentage : ℚ)
  | addNoiseT (noise : ℚ)
  | compose (first second : Transform)
  deriving DecidableEq

/-- The class-level sweep constants of `Wrapper` (`base.py` lines 328-330). -/
def Wrapper.epsilons : List ℚ :=
  [0, 1/1000, 5/1000, 1/100, 5/100, 1/10, 2/10, 3/10]

def Wrapper.shuffle_percentage : List ℚ := [0, 1/10, 2/10, 5/10, 8/10]

def Wrapper.noise : List ℚ :=
  [0, 1/100, 5/100, 1/10, 2/10, 3/10, 4/10, 5/10, 6/10, 7/10, 8/10]

/-- The `for n in tqdm(...)` loop shared by the two transform-swapping
sweeps: for each strength, assign the dataset's `transform` to `mk n` and
run the loop body; if the body raises, the loop aborts with the transform
left as last assigned.  Returns the transform after the loop, the list of
transforms assigned (in order) and the exception, if any. -/
def sweepLoop {E : Type} (body : ℚ → Except E Unit) (mk : ℚ → Transform) :
    List ℚ → Transform → Transform × List Transform × Option E
  | [], cur => (cur, [], none)
  | n :: rest, _ =>
      let ts := mk n
      match body n with
      | .error e => (ts, [ts], some e)
      | .ok _ =>
          let r := sweepLoop body mk rest ts
          (r.1, ts :: r.2.1, r.2.2)

/-- The statement `self.test_data.dataset.transform = ts_copy` that follows
the loop: it runs only when the loop completed without an exception (there
is no try/finally in the source). -/
def afterSweep {E : Type} (tsCopy : Transform)
    (r : Transform × List Transform × Option E) :
    Transform × List Transform × Option E :=
  match r.2.2 with
  | some e => (r.1, r.2.1, some e)
  | none => (tsCopy, r.2.1, none)

/-- Embedding of `Wrapper.shuffle_test`: `ts_copy = deepcopy(transform)`; then for each
`n` in `self.noise` (note: *not* `self.shuffle_percentage`) the transform is
set to `T.Compose([PixelShuffle(n), ts_copy])` and the body runs; only after
a completed loop does the source execute
`self.test_data.dataset.transform = ts_copy`. -/
def shuffle_test {E : Type} (body : ℚ → Except E Unit) (t0 : Transform) :
    Transform × List Transform × Option E :=
  let tsCopy := t0
  afterSweep tsCopy
    (sweepLoop body (fun n => .compose (.pixelShuffleT n) tsCopy) Wrapper.noise t0)

/-- Embedding of `Wrapper.white_noise_test`: same structure, with
`T.Compose([ts_copy, AddNoise(eps)])` per strength in `self.noise`. -/
def white_noise_test {E : Type} (body : ℚ → Except E Unit) (t0 : Transform) :
    Transform × List Transform × Option E :=
  let tsCopy := t0
  afterSweep tsCopy
    (sweepLoop body (fun eps => .compose tsCopy (.addNoiseT eps)) Wrapper.noise t0)

/-- Strengths of the `PixelShuffle` transforms assigned during a sweep. -/
def appliedStrengths : List Transform → List ℚ
  | [] => []
  | .compose (.pixelShuffleT p) _ :: rest => p :: appliedStrengths rest
  | _ :: rest => appliedStrengths rest

/-! ### `fgsm_attack` (`base.py` lines 66-76)

Tensors are element lists over `ℚ`; the gradient is `Option`al, since
`image.grad` is only touched in the `epsilon != 0` branch (with no computed
gradient, `image.grad` is `None` and `.data` on it would raise). -/

/-- Elementwise `torch.sign`. -/
def torchSign (g : ℚ) : ℚ := if 0 < g then 1 else if g < 0 then -1 else 0

/-- Source: `torch.clamp(x, 0, 1)`. -/
def clamp01 (x : ℚ) : ℚ := min (max x 0) 1

def fgsm_attack (image : List ℚ) (grad : Option (List ℚ)) (epsilon : ℚ) :
    Except String (List ℚ) :=
  if epsilon = 0 then .ok image
  else
    match grad with
    | none => .error "AttributeError: \x27NoneType\x27 object has no attribute \x27data\x27"
    | some g =>
        .ok ((image.zip g).map (fun p => clamp01 (p.1 + epsilon * torchSign p.2)))

/-! ### `PixelShuffle.__init__` (`base.py` lines 22-28) -/

/-- The state a constructed `PixelShuffle` object holds: the stored
percentage and the (initially unset) pixel map. -/
structure PixelShuffleState where
  percentage : ℚ
  pixels_map : Option (List ((Nat × Nat) × Nat))
  deriving DecidableEq

/-- Message of the `ValueError` raised on an out-of-range percentage
(the typo `wasa` is the source's). -/
def pixelShuffleError (p : ℚ) : String :=
  "percentage should be between 0 and 1, " ++ toString p ++ " wasa given"

/-- Embedding of `PixelShuffle.__init__(percentage)`. -/
def PixelShuffle.init (p : ℚ) : Except String PixelShuffleState :=
  if p < 0 ∨ p > 1 then .error (pixelShuffleError p)
  else .ok ⟨p, none⟩

/-! ### `Wrapper.reliability_diagram` bucketing (`base.py` lines 604-632)

The bucketing, accuracy/confidence means and the ECE accumulation are exact
rational arithmetic on the collected `y_prob`/`y_pred`/`y_true` lists; the
`nll` computed on line 607 uses `np.log` and is modelled separately over `ℝ`
below. -/

/-- Indices falling in bucket `b` (`1 ≤ b ≤ bins`):
`np.logical_and(y_prob <= b / bins, y_prob > (b - 1) / bins)`. -/
def bucketIdx (y_prob : List ℚ) (bins b : Nat) : List Nat :=
  (List.range y_prob.length).filter (fun i =>
    decide (y_prob.getD i 0 ≤ (b : ℚ) / (bins : ℚ) ∧
      ((b : ℚ) - 1) / (bins : ℚ) < y_prob.getD i 0))

/-- Source: `s = np.sum(i)`. -/
def bucketSize (y_prob : List ℚ) (bins b : Nat) : Nat :=
  (bucketIdx y_prob bins b).length

/-- Source: `acc = (1/s) * np.sum(y_pred[i] == y_true[i])`. -/
def bucketAcc (y_prob : List ℚ) (y_pred y_true : List Nat) (bins b : Nat) : ℚ :=
  (((bucketIdx y_prob bins b).countP
      (fun i => y_pred.getD i 0 == y_true.getD i 0) : ℚ)) /
    (bucketSize y_prob bins b : ℚ)

/-- Source: `conf = np.mean(y_prob[i])`. -/
def bucketConf (y_prob : List ℚ) (bins b : Nat) : ℚ :=
  ((bucketIdx y_prob bins b).map (fun i => y_prob.getD i 0)).sum /
    (bucketSize y_prob bins b : ℚ)

/-- The `prob_pred` array accumulated by the loop: an entry per bucket,
`0` for an empty bucket (`np.hstack((prob_pred, 0))`), the mean confidence
otherwise. -/
def prob_pred (y_prob : List ℚ) (bins : Nat) : List ℚ :=
  (List.range bins).map (fun k =>
    if bucketSize y_prob bins (k + 1) = 0 then 0
    else bucketConf y_prob bins (k + 1))

/-- The `prob_true` array: `0` for an empty bucket, the bucket accuracy
otherwise. -/
def prob_true (y_prob : List ℚ) (y_pred y_true : List Nat) (bins : Nat) : List ℚ :=
  (List.range bins).map (fun k =>
    if bucketSize y_prob bins (k + 1) = 0 then 0
    else bucketAcc y_prob y_pred y_true bins (k + 1))

/-- The accumulated `ece`: empty buckets are skipped (`continue`), the rest
contribute `(s / len(y_true)) * np.abs(acc - conf)`. -/
def ece (y_prob : List ℚ) (y_pred y_true : List Nat) (bins : Nat) : ℚ :=
  ((List.range bins).map (fun k =>
    if bucketSize y_prob bins (k + 1) = 0 then 0
    else (bucketSize y_prob bins (k + 1) : ℚ) / (y_true.length : ℚ) *
      |bucketAcc y_prob y_pred y_true bins (k + 1) -
        bucketConf y_prob bins (k + 1)|)).sum

/-! ### Real-valued uncertainty metrics

Logits of shape `(T, N, C)` become `Fin T → Fin N → Fin C → ℝ` (the source's
`if x.dim() == 2: x = x.unsqueeze(0)` corresponds to instantiating `T = 1`).
`softmax`, `log` and `exp` live over `ℝ`. -/

/-- Embedding of `torch.softmax` along the class axis. -/
noncomputable def softmaxV (C : ℕ) (v : Fin C → ℝ) (c : Fin C) : ℝ :=
  Real.exp (v c) / ∑ j, Real.exp (v j)

/-- One row of `-torch.sum(p * torch.log(p + 1e-12), -1) / np.log(classes)`:
the (guarded) entropy of one sample's softmax vector, normalized by
`log classes`. -/
noncomputable def sampleNormEntropy (C : ℕ) (v : Fin C → ℝ) : ℝ :=
  (-∑ c, softmaxV C v c * Real.log (softmaxV C v c + 1e-12)) / Real.log C

/-- Embedding of `entropy(x)` (`base.py` lines 164-174): per example `n`, the *mean over
the `T` samples* of the per-sample normalized entropies
(`_entropy = torch.mean(log_p, 0)`). -/
noncomputable def entropy (T N C : ℕ) (x : Fin T → Fin N → Fin C → ℝ)
    (n : Fin N) : ℝ :=
  (∑ t, sampleNormEntropy C (fun c => x t n c)) / T

/-- Mean-over-samples probability vector `p_hat = torch.mean(p, 0)`. -/
noncomputable def p_hat (T N C : ℕ) (x : Fin T → Fin N → Fin C → ℝ)
    (n : Fin N) (c : Fin C) : ℝ :=
  (∑ t, softmaxV C (fun j => x t n j) c) / T

/-- Modelled from the spec's sentence for `predictive_entropy`: the
normalized Shannon entropy of the mean-over-samples probability vector,
divided by `log C`.  Declared only for comparison with `entropy` above. -/
noncomputable def entropy_spec (T N C : ℕ) (x : Fin T → Fin N → Fin C → ℝ)
    (n : Fin N) : ℝ :=
  (-∑ c, p_hat T N C x n c * Real.log (p_hat T N C x n c)) / Real.log C

/-- The epistemic covariance matrix accumulated by
`epistemic_aleatoric_uncertainty` (`base.py` lines 138-147): entry `(i, j)`
of `ep / t` for example `n`, where each sample contributes
`np.outer(p - p_hat, p - p_hat)`. -/
noncomputable def epistemic (T N C : ℕ) (x : Fin T → Fin N → Fin C → ℝ)
    (n : Fin N) (i j : Fin C) : ℝ :=
  (∑ t, (softmaxV C (fun c => x t n c) i - p_hat T N C x n i) *
    (softmaxV C (fun c => x t n c) j - p_hat T N C x n j)) / T

/-- The aleatoric covariance matrix accumulated alongside: entry `(i, j)` of
`al / t`, each sample contributing `np.diag(p) - np.outer(p, p)`. -/
noncomputable def aleatoric (T N C : ℕ) (x : Fin T → Fin N → Fin C → ℝ)
    (n : Fin N) (i j : Fin C) : ℝ :=
  (∑ t, ((if i = j then softmaxV C (fun c => x t n c) i else 0) -
    softmaxV C (fun c => x t n c) i * softmaxV C (fun c => x t n c) j)) / T

/-! ### The log/division guards of claim C6

Three metric computations apply a logarithm to collected values:
`reliability_diagram`'s `nll = -np.sum(np.log(y_prob))` (line 607),
`shuffle_test`'s `H = -np.log(np.mean(H))` (line 419) and
`temperature_scaling`'s `loss = torch.sum(torch.log(_outs + 1e-12))`
(line 681).  Each gets a definition from the source and a variant for
comparison (`..._eps` adds the guard the spec describes; `..._noeps` removes
the guard the source has). -/

/-- Source: `nll = -np.sum(np.log(y_prob))` — no epsilon in the source. -/
noncomputable def reliability_nll (y_prob : List ℝ) : ℝ :=
  -((y_prob.map Real.log).sum)

/-- Modelled from the spec's words: the same negative log-likelihood with
the `1e-12` guard the spec says every log receives. -/
noncomputable def reliability_nll_eps (y_prob : List ℝ) : ℝ :=
  -((y_prob.map (fun p => Real.log (p + 1e-12))).sum)

/-- Source: `H = -np.log(np.mean(H))` (`shuffle_test`, line 419) — no epsilon. -/
noncomputable def shuffle_H (hs : List ℝ) : ℝ :=
  -Real.log (hs.sum / hs.length)

/-- Modelled from the spec's words: the same with the `1e-12` guard. -/
noncomputable def shuffle_H_eps (hs : List ℝ) : ℝ :=
  -Real.log (hs.sum / hs.length + 1e-12)

/-- Source: `loss = torch.sum(torch.log(_outs + 1e-12))` with
`_outs = torch.div(outs, temperature)` (`temperature_scaling`, lines
679-681) — this one the source does guard. -/
noncomputable def ts_loss (outs : List ℝ) (temperature : ℝ) : ℝ :=
  ((outs.map (fun o => Real.log (o / temperature + 1e-12))).sum)

/-- The unguarded variant of `ts_loss`, for comparison. -/
noncomputable def ts_loss_noeps (outs : List ℝ) (temperature : ℝ) : ℝ :=
  ((outs.map (fun o => Real.log (o / temperature))).sum)

/-! ### Helper lemmas -/

lemma afterSweep_none {E : Type} (tsCopy : Transform)
    (r : Transform × List Transform × Option E)
    (h : (afterSweep tsCopy r).2.2 = none) : (afterSweep tsCopy r).1 = tsCopy := by
  unfold afterSweep at *
  cases hr : r.2.2 with
  | none => rfl
  | some e => rw [hr] at h; simp at h

lemma afterSweep_applied {E : Type} (tsCopy : Transform)
    (r : Transform × List Transform × Option E) :
    (afterSweep tsCopy r).2.1 = r.2.1 := by
  unfold afterSweep
  cases r.2.2 <;> rfl

lemma sweepLoop_allok {E : Type} (mk : ℚ → Transform) :
    ∀ (l : List ℚ) (cur : Transform),
      (sweepLoop (E := E) (fun _ => Except.ok ()) mk l cur).2.1 = l.map mk ∧
      (sweepLoop (E := E) (fun _ => Except.ok ()) mk l cur).2.2 = none := by
  intro l
  induction l with
  | nil => intro cur; exact ⟨rfl, rfl⟩
  | cons n rest ih =>
      intro cur
      simpa [sweepLoop] using ih (mk n)

lemma appliedStrengths_map (t : Transform) :
    ∀ l : List ℚ,
      appliedStrengths (l.map (fun n => Transform.compose (.pixelShuffleT n) t)) = l := by
  intro l
  induction l with
  | nil => rfl
  | cons n rest ih => simp [appliedStrengths, ih]

/-! ### C9 — epistemic covariance vanishes for a single sample -/

/-- C9: for logits with exactly one stochastic sample (`T = 1`, which is
also where the source's `x.dim() == 2` unsqueeze path lands), every entry of
the epistemic covariance matrix computed by
`epistemic_aleatoric_uncertainty` is exactly `0`, for every example. -/
theorem epistemic_zero_of_single_sample (N C : ℕ)
    (x : Fin 1 → Fin N → Fin C → ℝ) (n : Fin N) (i j : Fin C) :
    epistemic 1 N C x n i j = 0 := by
  unfold epistemic p_hat
  simp [Fin.sum_univ_one]

/-! ### C10 — `PixelShuffle.__init__` validation -/

/-- C10: construction raises `ValueError` iff the percentage is `< 0` or
`> 1`; for every percentage in `[0, 1]` it succeeds, storing the percentage
with an unset (`None`) pixel map. -/
theorem pixelShuffle_init_iff (p : ℚ) :
    ((∃ m, PixelShuffle.init p = .error m) ↔ (p < 0 ∨ 1 < p)) ∧
    (0 ≤ p → p ≤ 1 → PixelShuffle.init p = .ok ⟨p, none⟩) := by
  by_cases h : p < 0 ∨ p > 1
  · refine ⟨⟨fun _ => h, fun _ => ⟨_, by rw [PixelShuffle.init, if_pos h]⟩⟩, ?_⟩
    intro h0 h1
    rcases h with h | h
    · linarith
    · linarith
  · rw [PixelShuffle.init, if_neg h]
    exact ⟨⟨fun ⟨m, hm⟩ => absurd hm (by simp), fun hh => absurd hh h⟩,
      fun _ _ => rfl⟩

theorem pixelShuffle_init_witness :
    PixelShuffle.init (1 / 2) = .ok ⟨1 / 2, none⟩ :=
  (pixelShuffle_init_iff (1 / 2)).2 (by norm_num) (by norm_num)

/-! ### C8 — FGSM attack -/

/-- C8: with `epsilon = 0`, `fgsm_attack` returns the input unchanged and
never touches the gradient (`image.grad` may be absent); with
`epsilon ≠ 0` it returns `clamp(image + epsilon * sign(grad), 0, 1)`
elementwise, and every element of the result lies in `[0, 1]`. -/
theorem fgsm_attack_spec (image g : List ℚ) (eps : ℚ) :
    fgsm_attack image (some g) 0 = .ok image ∧
    fgsm_attack image none 0 = .ok image ∧
    (eps ≠ 0 →
      fgsm_attack image (some g) eps =
        .ok ((image.zip g).map (fun p => clamp01 (p.1 + eps * torchSign p.2))) ∧
      ∀ y ∈ (image.zip g).map (fun p => clamp01 (p.1 + eps * torchSign p.2)),
        0 ≤ y ∧ y ≤ 1) := by
  refine ⟨by simp [fgsm_attack], by simp [fgsm_attack],
    fun h => ⟨by simp [fgsm_attack, h], ?_⟩⟩
  intro y hy
  simp only [List.mem_map] at hy
  obtain ⟨q, _, rfl⟩ := hy
  unfold clamp01
  exact ⟨le_min (le_max_right _ _) (by norm_num), min_le_right _ _⟩

theorem fgsm_attack_witness :
    fgsm_attack [(2 : ℚ)] (some [5]) 0 = .ok [2] ∧
    fgsm_attack [(2 : ℚ)] (some [5]) (1 / 2) =
      .ok (([(2 : ℚ)].zip [5]).map
        (fun p => clamp01 (p.1 + (1 / 2) * torchSign p.2))) :=
  ⟨(fgsm_attack_spec [2] [5] (1 / 2)).1,
   ((fgsm_attack_spec [2] [5] (1 / 2)).2.2 (by norm_num)).1⟩

/-! ### C2 — flatten insertion by the two builders

On `topology = [(16, 3, 1, 1), 10]` (a convolution directly followed by a
linear width, no pooling in between) `get_network` inserts exactly one
`Flatten` between them, but `get_bayesian_network` inserts none: its
convolution branch never sets `ll_conv = True`. -/

/-- C2 (exhibiting the defect): the deterministic builder flattens between
the convolution and the linear layer, the Bayesian builder does not — it
wires the linear layer to the 16 channels of the still-spatial tensor. -/
theorem bayes_builder_missing_flatten :
    get_bayesian_network [.convE 16 3 1 1, .intE 10] 3 32 32 10 =
      .ok [.bayesConv 3 16 3 1 1, .bayesLinear 16 10, .bayesLinear 10 10] ∧
    countFlatten [.bayesConv 3 16 3 1 1, .bayesLinear 16 10, .bayesLinear 10 10] = 0 ∧
    get_network [.convE 16 3 1 1, .intE 10] 3 32 32 10 =
      .ok [.conv2d 3 16 3 1 1, .flatten, .linear 16384 10, .linear 10 10] ∧
    countFlatten [.conv2d 3 16 3 1 1, .flatten, .linear 16384 10, .linear 10 10] = 1 := by
  refine ⟨rfl, rfl, rfl, rfl⟩

/-! ### C5 — the `InvalidTopology` error message -/

lemma bayes_foldlM_err (k : ℕ) :
    ∀ st : BState,
      List.foldlM bayesStep st
        (List.replicate k (TopEntry.intE 5) ++ [TopEntry.noneE]) =
      .error (topologyError .noneE) := by
  induction k with
  | zero => intro st; rfl
  | succ k ih =>
      intro st
      rw [List.replicate_succ, List.cons_append]
      show (bayesStep st (TopEntry.intE 5)) >>= _ = _
      exact ih _

lemma det_foldlM_err (k : ℕ) :
    ∀ st : BState,
      List.foldlM detStep st
        (List.replicate k (TopEntry.intE 5) ++ [TopEntry.noneE]) =
      .error (topologyError .noneE) := by
  induction k with
  | zero => intro st; rfl
  | succ k ih =>
      intro st
      rw [List.replicate_succ, List.cons_append]
      show (detStep st (TopEntry.intE 5)) >>= _ = _
      exact ih _

/-- C5 amended: an unrecognized topology entry makes both builders fail
fast (no layer list is produced) with the `ValueError` message, and that
message interpolates the offending entry's *value* — it is one fixed string
around `pyStr` of the entry, identical wherever in the topology the entry
sits, so the index is not part of it. -/
theorem invalid_topology_names_value (k : ℕ) :
    get_bayesian_network
        (List.replicate k (TopEntry.intE 5) ++ [TopEntry.noneE]) 3 32 32 10 =
      .error (topologyError .noneE) ∧
    get_network
        (List.replicate k (TopEntry.intE 5) ++ [TopEntry.noneE]) 3 32 32 10 =
      .error (topologyError .noneE) ∧
    (∃ pre post, topologyError .noneE = pre ++ pyStr .noneE ++ post) := by
  refine ⟨?_, ?_, ?_⟩
  · unfold get_bayesian_network
    rw [bayes_foldlM_err]
    rfl
  · unfold get_network
    rw [det_foldlM_err]
    rfl
  · exact ⟨_, _, rfl⟩

/-- C5 counterexample to the claim as stated: the error message raised for
an unrecognized entry at index `1` is the same string as the one raised at
index `3`, and it does not even contain the character `1`; so the message
does not name the offending index. -/
theorem invalid_topology_message_omits_index :
    get_bayesian_network [.intE 5, .noneE] 3 32 32 10 =
      .error (topologyError .noneE) ∧
    get_bayesian_network [.intE 5, .intE 5, .intE 5, .noneE] 3 32 32 10 =
      .error (topologyError .noneE) ∧
    get_network [.intE 5, .noneE] 3 32 32 10 =
      .error (topologyError .noneE) ∧
    get_network [.intE 5, .intE 5, .intE 5, .noneE] 3 32 32 10 =
      .error (topologyError .noneE) ∧
    (topologyError .noneE).data.contains '1' = false := by
  refine ⟨rfl, rfl, rfl, rfl, by decide⟩

/-! ### C3 — restoration of the dataset transform -/

/-- C3 counterexample to the claim as stated: when the loop body (model
forward pass / uncertainty computation) raises at the very first strength,
both sweeps leave the dataset's transform set to the perturbation pipeline,
not to its original value. -/
theorem transform_not_restored_on_error :
    (shuffle_test (fun _ => Except.error ()) (Transform.base 0)).1 =
      Transform.compose (.pixelShuffleT 0) (Transform.base 0) ∧
    (shuffle_test (fun _ => Except.error ()) (Transform.base 0)).1 ≠
      Transform.base 0 ∧
    (white_noise_test (fun _ => Except.error ()) (Transform.base 0)).1 =
      Transform.compose (Transform.base 0) (.addNoiseT 0) ∧
    (white_noise_test (fun _ => Except.error ()) (Transform.base 0)).1 ≠
      Transform.base 0 := by
  refine ⟨rfl, by decide, rfl, by decide⟩

/-- C3 amended: on every run of `shuffle_test` or `white_noise_test` that
returns normally (no exception from the loop body), the dataset's transform
is restored to its value before the call. -/
theorem transform_restored_on_normal_return {E : Type}
    (body : ℚ → Except E Unit) (t0 : Transform) :
    ((shuffle_test body t0).2.2 = none → (shuffle_test body t0).1 = t0) ∧
    ((white_noise_test body t0).2.2 = none → (white_noise_test body t0).1 = t0) :=
  ⟨fun h => afterSweep_none _ _ h, fun h => afterSweep_none _ _ h⟩

theorem transform_restored_witness :
    (shuffle_test (E := Unit) (fun _ => Except.ok ()) (Transform.base 0)).1 =
      Transform.base 0 ∧
    (white_noise_test (E := Unit) (fun _ => Except.ok ()) (Transform.base 0)).1 =
      Transform.base 0 :=
  ⟨(transform_restored_on_normal_return (fun _ => Except.ok ())
      (Transform.base 0)).1 (by decide),
   (transform_restored_on_normal_return (fun _ => Except.ok ())
      (Transform.base 0)).2 (by decide)⟩

/-! ### C4 — which strength list the pixel-shuffle sweep uses -/

/-- C4 (exhibiting the defect): on a run in which every loop body succeeds,
`shuffle_test` assigns one `Compose(PixelShuffle(n), ts_copy)` per `n` in
`Wrapper.noise` — eleven strengths `[0, .01, .05, .1, .2, .3, .4, .5, .6,
.7, .8]` — and not per `n` in the pre-registered
`Wrapper.shuffle_percentage = [0, .1, .2, .5, .8]`, which is unused. -/
theorem shuffle_test_sweeps_noise_list (t0 : Transform) :
    (shuffle_test (E := Unit) (fun _ => Except.ok ()) t0).2.1 =
      Wrapper.noise.map (fun n => Transform.compose (.pixelShuffleT n) t0) ∧
    appliedStrengths
        (shuffle_test (E := Unit) (fun _ => Except.ok ()) t0).2.1 =
      Wrapper.noise ∧
    Wrapper.noise ≠ Wrapper.shuffle_percentage := by
  have h1 : (shuffle_test (E := Unit) (fun _ => Except.ok ()) t0).2.1 =
      Wrapper.noise.map (fun n => Transform.compose (.pixelShuffleT n) t0) := by
    unfold shuffle_test
    rw [afterSweep_applied]
    exact (sweepLoop_allok _ _ _).1
  refine ⟨h1, ?_, by simp [Wrapper.noise, Wrapper.shuffle_percentage]⟩
  rw [h1]
  exact appliedStrengths_map t0 Wrapper.noise

/-! ### C7 — reliability diagram bucketing and ECE -/

lemma list_range_map_sum (g : ℕ → ℚ) :
    ∀ n : ℕ, ((List.range n).map g).sum = ∑ k in Finset.range n, g k := by
  intro n
  induction n with
  | zero => simp
  | succ n ih =>
      rw [List.range_succ, List.map_append, List.sum_append,
        Finset.sum_range_succ, ih]
      simp

lemma sum_range_shift_Icc (g : ℕ → ℚ) :
    ∀ n : ℕ, (∑ k in Finset.range n, g (k + 1)) = ∑ b in Finset.Icc 1 n, g b := by
  intro n
  induction n with
  | zero => simp
  | succ n ih =>
      rw [Finset.sum_range_succ, Finset.sum_Icc_succ_top (by omega), ih]

/-- C7: bucket membership follows the half-open rule
`(b-1)/bins < conf ≤ b/bins`; an empty bucket contributes the pair `(0, 0)`
to `prob_pred`/`prob_true`; the accumulated ECE is the sum over buckets of
`(size/total) * |accuracy - confidence|` with empty buckets skipped; and the
ECE is `0` whenever every non-empty bucket's accuracy equals its mean
confidence. -/
theorem reliability_diagram_spec (y_prob : List ℚ) (y_pred y_true : List ℕ)
    (bins : ℕ) :
    (∀ b i, i ∈ bucketIdx y_prob bins b ↔
      i < y_prob.length ∧ ((b : ℚ) - 1) / (bins : ℚ) < y_prob.getD i 0 ∧
        y_prob.getD i 0 ≤ (b : ℚ) / (bins : ℚ)) ∧
    (∀ b, 1 ≤ b → b ≤ bins → bucketSize y_prob bins b = 0 →
      (prob_pred y_prob bins)[b - 1]? = some 0 ∧
      (prob_true y_prob y_pred y_true bins)[b - 1]? = some 0) ∧
    ece y_prob y_pred y_true bins =
      (∑ b in Finset.Icc 1 bins,
        if bucketSize y_prob bins b = 0 then 0
        else (bucketSize y_prob bins b : ℚ) / (y_true.length : ℚ) *
          |bucketAcc y_prob y_pred y_true bins b - bucketConf y_prob bins b|) ∧
    ((∀ b ∈ Finset.Icc 1 bins, bucketSize y_prob bins b ≠ 0 →
        bucketAcc y_prob y_pred y_true bins b = bucketConf y_prob bins b) →
      ece y_prob y_pred y_true bins = 0) := by
  have hmem : ∀ b i, i ∈ bucketIdx y_prob bins b ↔
      i < y_prob.length ∧ ((b : ℚ) - 1) / (bins : ℚ) < y_prob.getD i 0 ∧
        y_prob.getD i 0 ≤ (b : ℚ) / (bins : ℚ) := by
    intro b i
    unfold bucketIdx
    rw [List.mem_filter, List.mem_range, decide_eq_true_eq]
    tauto
  have hece : ece y_prob y_pred y_true bins =
      (∑ b in Finset.Icc 1 bins,
        if bucketSize y_prob bins b = 0 then 0
        else (bucketSize y_prob bins b : ℚ) / (y_true.length : ℚ) *
          |bucketAcc y_prob y_pred y_true bins b - bucketConf y_prob bins b|) := by
    unfold ece
    rw [list_range_map_sum]
    exact sum_range_shift_Icc (fun b =>
      if bucketSize y_prob bins b = 0 then 0
      else (bucketSize y_prob bins b : ℚ) / (y_true.length : ℚ) *
        |bucketAcc y_prob y_pred y_true bins b - bucketConf y_prob bins b|) bins
  refine ⟨hmem, ?_, hece, ?_⟩
  · intro b hb1 hbbins h0
    have hlt : b - 1 < bins := by omega
    have hb : b - 1 + 1 = b := by omega
    constructor
    · unfold prob_pred
      rw [List.getElem?_map, List.getElem?_range hlt]
      simp [hb, h0]
    · unfold prob_true
      rw [List.getElem?_map, List.getElem?_range hlt]
      simp [hb, h0]
  · intro hacc
    rw [hece]
    refine Finset.sum_eq_zero fun b hb => ?_
    by_cases h0 : bucketSize y_prob bins b = 0
    · rw [if_pos h0]
    · rw [if_neg h0, hacc b hb h0, sub_self, abs_zero, mul_zero]

theorem reliability_diagram_witness :
    ece [1, 1] [0, 1] [0, 1] 2 = 0 :=
  (reliability_diagram_spec [1, 1] [0, 1] [0, 1] 2).2.2.2 (by
    intro b hb h0
    fin_cases hb
    · exact absurd (by norm_num [bucketSize, bucketIdx, List.range_succ]) h0
    · norm_num [bucketAcc, bucketConf, bucketSize, bucketIdx, List.range_succ])

/-! ### C6 — which logs carry the `1e-12` guard -/

lemma log_eps_neg : Real.log (1e-12 : ℝ) < 0 :=
  Real.log_neg (by norm_num) (by norm_num)

/-- C6 counterexample to the claim as stated: the negative log-likelihood
of top-1 probabilities (`nll = -np.sum(np.log(y_prob))`,
`reliability_diagram` line 607) applies `log` with no epsilon: on a zero
probability it differs from the guarded computation the claim describes
(which would give `-log(1e-12) > 0`). -/
theorem reliability_nll_unguarded :
    reliability_nll [0] ≠ reliability_nll_eps [0] := by
  have h1 : reliability_nll [0] = 0 := by
    simp [reliability_nll]
  have h2 : reliability_nll_eps [0] = -Real.log (1e-12 : ℝ) := by
    simp [reliability_nll_eps]
  rw [h1, h2]
  intro h
  linarith [log_eps_neg]

/-- C6 amended: the log in `temperature_scaling`'s loss does add `1e-12`
(on a zero input it evaluates the finite `log 1e-12`, unlike its unguarded
variant), but the log of the mean uncertainty score in `shuffle_test`
(line 419) is applied with no epsilon and differs from the guarded
computation on a zero input. -/
theorem epsilon_guard_mixed :
    shuffle_H [0] ≠ shuffle_H_eps [0] ∧
    ts_loss [0] 1 = Real.log (1e-12 : ℝ) ∧
    ts_loss [0] 1 ≠ ts_loss_noeps [0] 1 := by
  have hH : shuffle_H [0] = 0 := by
    simp [shuffle_H]
  have hHe : shuffle_H_eps [0] = -Real.log (1e-12 : ℝ) := by
    simp [shuffle_H_eps]
  have hts : ts_loss [0] 1 = Real.log (1e-12 : ℝ) := by
    simp [ts_loss]
  have htsn : ts_loss_noeps [0] 1 = 0 := by
    simp [ts_loss_noeps]
  refine ⟨?_, hts, ?_⟩
  · rw [hH, hHe]
    intro h
    linarith [log_eps_neg]
  · rw [hts, htsn]
    exact ne_of_lt log_eps_neg

/-! ### C1 — what `entropy` actually returns -/

lemma sum_exp_pos (C : ℕ) (hC : 0 < C) (v : Fin C → ℝ) :
    0 < ∑ j, Real.exp (v j) := by
  have : Nonempty (Fin C) := ⟨⟨0, hC⟩⟩
  exact Finset.sum_pos (fun j _ => Real.exp_pos _) Finset.univ_nonempty

lemma softmaxV_pos (C : ℕ) (hC : 0 < C) (v : Fin C → ℝ) (c : Fin C) :
    0 < softmaxV C v c :=
  div_pos (Real.exp_pos _) (sum_exp_pos C hC v)

lemma softmaxV_sum_one (C : ℕ) (hC : 0 < C) (v : Fin C → ℝ) :
    ∑ c, softmaxV C v c = 1 := by
  unfold softmaxV
  rw [← Finset.sum_div]
  exact div_self (ne_of_gt (sum_exp_pos C hC v))

/-- Gibbs bound, proved termwise from `log x ≤ x - 1`: for a positive
probability vector, `-Σ p log p ≤ log C`. -/
lemma neg_sum_mul_log_le (C : ℕ) (hC : 0 < C) (p : Fin C → ℝ)
    (hp : ∀ c, 0 < p c) (hsum : ∑ c, p c = 1) :
    -∑ c, p c * Real.log (p c) ≤ Real.log C := by
  have hCpos : (0 : ℝ) < C := by exact_mod_cast hC
  have hterm : ∀ c : Fin C,
      -(p c * Real.log (p c)) ≤ p c * Real.log C + (1 / (C : ℝ) - p c) := by
    intro c
    have hpc := hp c
    have h1 : Real.log (1 / ((C : ℝ) * p c)) ≤ 1 / ((C : ℝ) * p c) - 1 :=
      Real.log_le_sub_one_of_pos (by positivity)
    have h2 : Real.log (1 / ((C : ℝ) * p c)) = -(Real.log C + Real.log (p c)) := by
      rw [one_div, Real.log_inv, Real.log_mul (ne_of_gt hCpos) (ne_of_gt hpc)]
    rw [h2] at h1
    have h4 := mul_le_mul_of_nonneg_left h1 hpc.le
    have h5 : p c * (1 / ((C : ℝ) * p c) - 1) = 1 / (C : ℝ) - p c := by
      field_simp
      ring
    rw [h5] at h4
    nlinarith [h4]
  have hsum2 : ∑ c, (p c * Real.log C + (1 / (C : ℝ) - p c)) = Real.log C := by
    rw [Finset.sum_add_distrib, ← Finset.sum_mul, hsum, one_mul,
      Finset.sum_sub_distrib, hsum, Finset.sum_const, Finset.card_univ,
      Fintype.card_fin, nsmul_eq_mul]
    have hne : (C : ℝ) ≠ 0 := ne_of_gt hCpos
    field_simp
  calc -∑ c, p c * Real.log (p c) = ∑ c, -(p c * Real.log (p c)) := by
        rw [Finset.sum_neg_distrib]
    _ ≤ ∑ c, (p c * Real.log C + (1 / (C : ℝ) - p c)) :=
        Finset.sum_le_sum fun c _ => hterm c
    _ = Real.log C := hsum2

/-- Each per-sample normalized entropy the source averages is at most 1
(for at least two classes). -/
lemma sampleNormEntropy_le_one (C : ℕ) (hC : 2 ≤ C) (v : Fin C → ℝ) :
    sampleNormEntropy C v ≤ 1 := by
  have hC0 : 0 < C := by omega
  have hC1 : (1 : ℝ) < C := by
    have : (2 : ℝ) ≤ C := by exact_mod_cast hC
    linarith
  have hlogC : 0 < Real.log C := Real.log_pos hC1
  have h1 : ∑ c, softmaxV C v c * Real.log (softmaxV C v c) ≤
      ∑ c, softmaxV C v c * Real.log (softmaxV C v c + 1e-12) :=
    Finset.sum_le_sum fun c _ =>
      mul_le_mul_of_nonneg_left
        (Real.log_le_log (softmaxV_pos C hC0 v c)
          (le_add_of_nonneg_right (by norm_num)))
        (softmaxV_pos C hC0 v c).le
  have h2 := neg_sum_mul_log_le C hC0 (softmaxV C v)
    (softmaxV_pos C hC0 v) (softmaxV_sum_one C hC0 v)
  unfold sampleNormEntropy
  rw [div_le_one hlogC]
  linarith

/-- C1 amended: per example, `entropy` returns the *mean over the `T`
samples of the per-sample normalized entropies* (of each sample's own
softmax vector), not the entropy of the mean probability vector; each
returned value is at most 1 (for at least two classes). -/
theorem entropy_is_mean_of_sample_entropies (T N C : ℕ) (hC : 2 ≤ C)
    (x : Fin T → Fin N → Fin C → ℝ) (n : Fin N) :
    entropy T N C x n = (∑ t, sampleNormEntropy C (fun c => x t n c)) / T ∧
    entropy T N C x n ≤ 1 := by
  refine ⟨rfl, ?_⟩
  unfold entropy
  rcases Nat.eq_zero_or_pos T with hT | hT
  · subst hT
    simp
  · rw [div_le_one (by exact_mod_cast hT)]
    calc ∑ t, sampleNormEntropy C (fun c => x t n c) ≤ ∑ _t : Fin T, (1 : ℝ) :=
          Finset.sum_le_sum fun t _ => sampleNormEntropy_le_one C hC _
      _ = T := by simp

theorem entropy_le_one_witness :
    entropy 1 1 2 (fun _ _ _ => 0) 0 ≤ 1 :=
  (entropy_is_mean_of_sample_entropies 1 1 2 (by norm_num) (fun _ _ _ => 0) 0).2

/-- The concrete logits refuting `entropy = normalized entropy of the mean
probability vector`: two samples, one example, two classes, with sample 0
logits `(log 3, 0)` and sample 1 logits `(0, log 3)` — softmax vectors
`(3/4, 1/4)` and `(1/4, 3/4)`, whose mean is the uniform vector. -/
noncomputable def xC1 : Fin 2 → Fin 1 → Fin 2 → ℝ := fun t _ c =>
  if t = 0 then (if c = 0 then Real.log 3 else 0)
  else (if c = 0 then 0 else Real.log 3)

lemma exp_log_three : Real.exp (Real.log 3) = (3 : ℝ) :=
  Real.exp_log (by norm_num)

lemma softmax_a0 :
    softmaxV 2 (fun c : Fin 2 => if c = 0 then Real.log 3 else 0) 0 = 3 / 4 := by
  unfold softmaxV
  rw [Fin.sum_univ_two]
  norm_num [exp_log_three, Real.exp_zero]

lemma softmax_a1 :
    softmaxV 2 (fun c : Fin 2 => if c = 0 then Real.log 3 else 0) 1 = 1 / 4 := by
  unfold softmaxV
  rw [Fin.sum_univ_two]
  norm_num [exp_log_three, Real.exp_zero]

lemma softmax_b0 :
    softmaxV 2 (fun c : Fin 2 => if c = 0 then 0 else Real.log 3) 0 = 1 / 4 := by
  unfold softmaxV
  rw [Fin.sum_univ_two]
  norm_num [exp_log_three, Real.exp_zero]

lemma softmax_b1 :
    softmaxV 2 (fun c : Fin 2 => if c = 0 then 0 else Real.log 3) 1 = 3 / 4 := by
  unfold softmaxV
  rw [Fin.sum_univ_two]
  norm_num [exp_log_three, Real.exp_zero]

lemma entropy_xC1_value :
    entropy 2 1 2 xC1 0 =
      -(3 / 4 * Real.log (3 / 4 + 1e-12) + 1 / 4 * Real.log (1 / 4 + 1e-12)) /
        Real.log 2 := by
  unfold entropy sampleNormEntropy
  rw [Fin.sum_univ_two]
  have hx0 : (fun c => xC1 0 0 c) =
      (fun c : Fin 2 => if c = 0 then Real.log 3 else 0) := by
    funext c
    simp [xC1]
  have hx1 : (fun c => xC1 1 0 c) =
      (fun c : Fin 2 => if c = 0 then 0 else Real.log 3) := by
    funext c
    simp [xC1]
  rw [hx0, hx1, Fin.sum_univ_two, Fin.sum_univ_two,
    softmax_a0, softmax_a1, softmax_b0, softmax_b1]
  push_cast
  ring

lemma entropy_spec_xC1_value : entropy_spec 2 1 2 xC1 0 = 1 := by
  unfold entropy_spec
  have hx0 : (fun j => xC1 0 0 j) =
      (fun c : Fin 2 => if c = 0 then Real.log 3 else 0) := by
    funext j
    simp [xC1]
  have hx1 : (fun j => xC1 1 0 j) =
      (fun c : Fin 2 => if c = 0 then 0 else Real.log 3) := by
    funext j
    simp [xC1]
  have hp0 : p_hat 2 1 2 xC1 0 0 = 1 / 2 := by
    unfold p_hat
    rw [Fin.sum_univ_two, hx0, hx1, softmax_a0, softmax_b0]
    norm_num
  have hp1 : p_hat 2 1 2 xC1 0 1 = 1 / 2 := by
    unfold p_hat
    rw [Fin.sum_univ_two, hx0, hx1, softmax_a1, softmax_b1]
    norm_num
  rw [Fin.sum_univ_two, hp0, hp1]
  have hhalf : Real.log (1 / 2 : ℝ) = -Real.log 2 := by
    rw [one_div, Real.log_inv]
  have hlog2 : Real.log 2 ≠ 0 := ne_of_gt (Real.log_pos one_lt_two)
  rw [hhalf]
  push_cast
  field_simp

/-- C1 counterexample to the claim as stated: on the logits `xC1` the value
returned by `entropy` (the mean of the two per-sample entropies, strictly
below 1) differs from the normalized Shannon entropy of the mean-over-samples
probability vector (which is exactly 1, the uniform vector's entropy). -/
theorem entropy_ne_entropy_of_mean :
    entropy 2 1 2 xC1 0 ≠ entropy_spec 2 1 2 xC1 0 := by
  rw [entropy_xC1_value, entropy_spec_xC1_value]
  have hlog2 : 0 < Real.log 2 := Real.log_pos one_lt_two
  have h34 : Real.log (3 / 4 : ℝ) ≤ Real.log (3 / 4 + 1e-12) :=
    Real.log_le_log (by norm_num) (by norm_num)
  have h14 : Real.log (1 / 4 : ℝ) ≤ Real.log (1 / 4 + 1e-12) :=
    Real.log_le_log (by norm_num) (by norm_num)
  have hlog34 : Real.log (3 / 4 : ℝ) = Real.log 3 - 2 * Real.log 2 := by
    rw [Real.log_div (by norm_num) (by norm_num),
      show (4 : ℝ) = 2 ^ 2 by norm_num, Real.log_pow]
    push_cast
    ring
  have hlog14 : Real.log (1 / 4 : ℝ) = -(2 * Real.log 2) := by
    rw [one_div, Real.log_inv, show (4 : ℝ) = 2 ^ 2 by norm_num, Real.log_pow]
    push_cast
    ring
  have hkey : 4 * Real.log 2 < 3 * Real.log 3 := by
    have h16 : Real.log (16 : ℝ) < Real.log 27 :=
      Real.log_lt_log (by norm_num) (by norm_num)
    rw [show (16 : ℝ) = 2 ^ 4 by norm_num, show (27 : ℝ) = 3 ^ 3 by norm_num,
      Real.log_pow, Real.log_pow] at h16
    push_cast at h16
    linarith
  have hlt : -(3 / 4 * Real.log (3 / 4 + 1e-12) +
      1 / 4 * Real.log (1 / 4 + 1e-12)) < Real.log 2 := by
    linarith
  intro h
  rw [div_eq_one_iff_eq (ne_of_gt hlog2)] at h
  linarith

end MMDBNN
